import Mathlib

/-!
Verification of `example_imf.py` (GEM 2019 workshop example): a loader for
SWMF-format ASCII IMF files plus derived-quantity calculations on the
loaded dataset.  The Python code is shallowly embedded: the dataset dict
becomes a structure with one (optional, for derived keys) field per key,
the parsing helpers mirror Python string operations, and each `calc_*`
method becomes a function on the dataset.
-/

namespace ExampleImf

/-- Whitespace characters recognised by Python's `str.strip()` and
`str.split()` on ASCII input: space, tab, newline, carriage return,
vertical tab, form feed. -/
def pyIsSpace (c : Char) : Bool :=
  c = ' ' || c = '\t' || c = '\n' || c = '\r' || c = '\x0b' || c = '\x0c'

/-- Python `str.strip()`: remove leading and trailing whitespace. -/
def pyStrip (s : String) : String :=
  String.mk (((s.toList.dropWhile pyIsSpace).reverse.dropWhile pyIsSpace).reverse)

/-- Helper for `pySplit`: scan the characters, accumulating the current
token in reverse. -/
def pySplitAux : List Char → List Char → List String
  | [], [] => []
  | [], acc => [String.mk acc.reverse]
  | c :: cs, acc =>
    if pyIsSpace c then
      match acc with
      | [] => pySplitAux cs []
      | _ => String.mk acc.reverse :: pySplitAux cs []
    else pySplitAux cs (c :: acc)

/-- Python `str.split()` with no argument: split on runs of whitespace,
discarding empty tokens. -/
def pySplit (s : String) : List String := pySplitAux s.toList []

/-- Value of a list of decimal digit characters read most significant
first. -/
def digitsToNat (cs : List Char) : Nat :=
  cs.foldl (fun n c => 10 * n + (c.toNat - '0'.toNat)) 0

/-- A token of between `lo` and `hi` decimal digits, parsed as a `Nat`. -/
def parseDigits (lo hi : Nat) (s : String) : Option Nat :=
  let cs := s.toList
  if lo ≤ cs.length ∧ cs.length ≤ hi ∧ cs.all Char.isDigit then
    some (digitsToNat cs)
  else none

/-- A parsed `YYYY MM DD HH MM SS` timestamp (the value produced by
`datetime.datetime.strptime(tNow, '%Y %m %d %H %M %S')`). -/
structure Timestamp where
  year : Nat
  month : Nat
  day : Nat
  hour : Nat
  minute : Nat
  second : Nat
deriving DecidableEq, Repr

/-- Whether `lo ≤ n ≤ hi`. -/
def inRange (lo hi n : Nat) : Bool := lo ≤ n && n ≤ hi

/-- Models `datetime.strptime` with format `'%Y %m %d %H %M %S'` applied to
the six timestamp tokens joined by single spaces: `%Y` is exactly four
digits, the remaining directives are one or two digits within CPython's
`_strptime` ranges (month 1–12, day 1–31, hour 0–23, minute 0–59, second
0–61).  The additional day-of-month-versus-month calendar check performed
by `datetime` is elided; no claim depends on it.  Fails (`none`) on any
other token list, in particular when fewer than six tokens are present. -/
def parseTimestamp : List String → Option Timestamp
  | [ys, mos, ds, hs, mis, ss] => do
    let y ← parseDigits 4 4 ys
    let mo ← parseDigits 1 2 mos
    let d ← parseDigits 1 2 ds
    let h ← parseDigits 1 2 hs
    let mi ← parseDigits 1 2 mis
    let s ← parseDigits 1 2 ss
    if inRange 1 12 mo ∧ inRange 1 31 d ∧ inRange 0 23 h ∧
        inRange 0 59 mi ∧ inRange 0 61 s then
      some ⟨y, mo, d, h, mi, s⟩
    else none
  | _ => none

/-- Optional leading sign of a numeric literal. -/
def parseSign : List Char → Int × List Char
  | '+' :: cs => (1, cs)
  | '-' :: cs => (-1, cs)
  | cs => (1, cs)

/-- Models Python `float()` on plain decimal literals: optional
surrounding whitespace, optional sign, digits with an optional fractional
part and an optional decimal exponent, returning the exact rational value
of the literal.  Special forms (`inf`, `nan`, underscores, hex) are not
modelled; no claim depends on them. -/
def pyFloat (s : String) : Option ℚ :=
  let cs := (pyStrip s).toList
  let (sgn, cs) := parseSign cs
  let ip := cs.takeWhile Char.isDigit
  let cs := cs.dropWhile Char.isDigit
  let (fp, cs) :=
    match cs with
    | '.' :: t => (t.takeWhile Char.isDigit, t.dropWhile Char.isDigit)
    | t => (([] : List Char), t)
  if ip.isEmpty ∧ fp.isEmpty then none
  else
    let mantissa : ℚ := (digitsToNat ip : ℚ) + (digitsToNat fp : ℚ) / (10 : ℚ) ^ fp.length
    match cs with
    | [] => some ((sgn : ℚ) * mantissa)
    | 'e' :: t | 'E' :: t =>
      let (esgn, t) := parseSign t
      let ed := t.takeWhile Char.isDigit
      if ed.isEmpty ∨ t.dropWhile Char.isDigit ≠ [] then none
      else some ((sgn : ℚ) * mantissa * (10 : ℚ) ^ (esgn * (digitsToNat ed : Int)))
    | _ => none

/-- Map an option-valued function over a list, failing as soon as one
element fails (models a loop that raises on the first conversion error). -/
def mapOpt (f : α → Option β) : List α → Option (List β)
  | [] => some []
  | a :: as =>
    match f a, mapOpt f as with
    | some b, some bs => some (b :: bs)
    | _, _ => none

/-- Value stored for the `j`-th physical field of one data row: the `j`-th
converted token if the row supplied one, otherwise the zero the arrays
were initialised with (`np.zeros`). -/
def rowField [Zero α] (vals : List α) (j : Nat) : α := vals.getD j 0

/-- Parse one data line: split on whitespace; tokens 0–5 form the
timestamp (`' '.join(parts[:6])` then `strptime`); token 6 is never read;
tokens from index 7 are paired with the eight field names by `zip` (which
stops at the shorter list), and each paired token must convert. -/
def parseRow (toFloat : String → Option α) (l : String) :
    Option (Timestamp × List α) :=
  let parts := pySplit l
  match parseTimestamp (parts.take 6), mapOpt toFloat ((parts.drop 7).take 8) with
  | some t, some vals => some (t, vals)
  | _, _ => none

/-- The header scan: drop lines until one whose stripped content is
`#START`, returning the remaining (data) lines.  `none` is the case in
which the Python `while` loop never exits (see `scanStep`). -/
def findStart : List String → Option (List String)
  | [] => none
  | l :: ls => if pyStrip l = "#START" then some ls else findStart ls

/-- Python `file.readline()` on a file modelled as its list of remaining
lines: at end of file it returns the empty string and leaves the file
exhausted (subsequent calls keep returning `''`). -/
def readline : List String → String × List String
  | [] => ("", [])
  | l :: ls => (l, ls)

/-- One iteration of the header-scan `while` loop.  The loop state is
(current line, remaining lines); the body replaces the current line by the
next `readline()` result, and the loop exits only when `pyStrip` of the
current line equals `#START`. -/
def scanStep (st : String × List String) : String × List String :=
  readline st.2

/-- A Python value passed as the file-name argument (`self.file`); the
code checks `type(self.file) != type('str')`. -/
inductive PyVal where
  | str (s : String)
  | int (n : Int)
  | noneV
deriving DecidableEq, Repr

/-- Whether the value is a Python `str`. -/
def PyVal.isStr : PyVal → Bool
  | .str _ => true
  | _ => false

/-- The `ImfData` dictionary after loading (and possibly after derived
calculations).  Base fields are parallel sequences, one entry per data
line; derived fields `b`, `v`, `clock`, `epsilon` are absent (`none`)
until the corresponding `calc` method stores them.  The key `by` of the
Python source is a Lean keyword and is written `«by»`. -/
structure ImfData (α : Type) where
  file : String
  time : List Timestamp
  bx : List α
  «by» : List α
  bz : List α
  vx : List α
  vy : List α
  vz : List α
  rho : List α
  temp : List α
  b : Option (List α) := none
  v : Option (List α) := none
  clock : Option (List α) := none
  epsilon : Option (List α) := none
deriving DecidableEq, Repr

/-- Result of `ImfData.__init__` (which stores the file name and runs
`_read_data`).  `diverges` records that the header scan loops forever
(no line of the file strips to `#START`); `valueError` records a
`strptime` or float-conversion failure on a data line. -/
inductive Outcome (α : Type) where
  | ok (d : ImfData α)
  | typeError
  | ioError
  | valueError
  | diverges
deriving DecidableEq, Repr

/-- Model of `ImfData._read_data`: check that the file name is a string (raising
`TypeError` otherwise, before any I/O), open the file (`fs` maps names to
file contents, `none` meaning the open fails), scan for the sentinel,
slurp the remaining lines, allocate one zero array per field and fill them
row by row.  `toFloat` models float conversion of one token. -/
def readData [Zero α] (toFloat : String → Option α) (file : PyVal)
    (fs : String → Option (List String)) : Outcome α :=
  match file with
  | .int _ => .typeError
  | .noneV => .typeError
  | .str s =>
    match fs s with
    | none => .ioError
    | some lines =>
      match findStart lines with
      | none => .diverges
      | some dataLines =>
        match mapOpt (parseRow toFloat) dataLines with
        | none => .valueError
        | some rows =>
          .ok {
            file := s
            time := rows.map Prod.fst
            bx := rows.map (fun r => rowField r.2 0)
            «by» := rows.map (fun r => rowField r.2 1)
            bz := rows.map (fun r => rowField r.2 2)
            vx := rows.map (fun r => rowField r.2 3)
            vy := rows.map (fun r => rowField r.2 4)
            vz := rows.map (fun r => rowField r.2 5)
            rho := rows.map (fun r => rowField r.2 6)
            temp := rows.map (fun r => rowField r.2 7) }

/-- Elementwise combination of three equal-length arrays (a numpy ternary
elementwise expression). -/
def zipWith3 (f : α → β → γ → δ) : List α → List β → List γ → List δ
  | a :: as, b :: bs, c :: cs => f a b c :: zipWith3 f as bs cs
  | _, _, _ => []

/-- Model of `np.arctan2 y x`: the angle of the point `(x, y)`, in radians, in the
range `(-π, π]` (the real model has no signed zero, so the `-π` branch of
numpy's `[-π, π]` is not reachable). -/
noncomputable def atan2 (y x : ℝ) : ℝ := Complex.arg ⟨x, y⟩

/-- Model of `ImfData.calc_b`: store `sqrt(bx**2 + by**2 + bz**2)` as `self['b']`. -/
noncomputable def calc_b (d : ImfData ℝ) : ImfData ℝ :=
  { d with b := some (zipWith3 (fun x y z => Real.sqrt (x ^ 2 + y ^ 2 + z ^ 2))
      d.bx d.«by» d.bz) }

/-- Model of `ImfData.calc_v`: store `sqrt(vx**2 + vy**2 + vz**2)` as `self['v']`. -/
noncomputable def calc_v (d : ImfData ℝ) : ImfData ℝ :=
  { d with v := some (zipWith3 (fun x y z => Real.sqrt (x ^ 2 + y ^ 2 + z ^ 2))
      d.vx d.vy d.vz) }

/-- Model of `ImfData.calc_clock`: store `np.arctan2(self['by'], self['bz'])` as
`self['clock']`. -/
noncomputable def calc_clock (d : ImfData ℝ) : ImfData ℝ :=
  { d with clock := some (List.zipWith atan2 d.«by» d.bz) }

/-- The prerequisite-resolution block at the top of `ImfData.calc_epsilon`:
`if 'b' not in self: self.calc_b()`, then the same for `'v'` and
`'clock'` — each derived key is computed only when it is missing. -/
noncomputable def ensurePrereqs (d : ImfData ℝ) : ImfData ℝ :=
  let d1 := if d.b.isNone then calc_b d else d
  let d2 := if d1.v.isNone then calc_v d1 else d1
  if d2.clock.isNone then calc_clock d2 else d2

/-- Model of `ImfData.calc_epsilon`: ensure the prerequisites `b`, `v`, `clock` are
present (computing each only if its key is missing), then store
`conv * v * b**2 * np.sin(clock/2)**4` as `self['epsilon']`, with
`mu_o = 4*np.pi*1E-7` and `conv = 1000. * 1E-9**2 / mu_o`. -/
noncomputable def calc_epsilon (d : ImfData ℝ) : ImfData ℝ :=
  let d3 := ensurePrereqs d
  let mu_o : ℝ := 4 * Real.pi * 1e-7
  let conv : ℝ := 1000 * (1e-9) ^ 2 / mu_o
  { d3 with epsilon := some (zipWith3
      (fun v b c => conv * v * b ^ 2 * Real.sin (c / 2) ^ 4)
      (d3.v.getD []) (d3.b.getD []) (d3.clock.getD [])) }

/-! ### Helper lemmas -/

lemma mapOpt_length (f : α → Option β) :
    ∀ {xs : List α} {ys : List β}, mapOpt f xs = some ys → ys.length = xs.length := by
  intro xs
  induction xs with
  | nil =>
    intro ys h
    simp [mapOpt] at h
    simp [← h]
  | cons a as ih =>
    intro ys h
    cases hfa : f a <;> cases hrec : mapOpt f as <;>
      simp [mapOpt, hfa, hrec] at h
    simp [← h, ih hrec]

lemma mapOpt_getD (f : α → Option β) (d1 : α) (d2 : β) :
    ∀ {xs : List α} {ys : List β}, mapOpt f xs = some ys →
      ∀ j, j < xs.length → f (xs.getD j d1) = some (ys.getD j d2) := by
  intro xs
  induction xs with
  | nil =>
    intro ys _ j hj
    simp at hj
  | cons a as ih =>
    intro ys h j hj
    cases hfa : f a <;> cases hrec : mapOpt f as <;>
      simp [mapOpt, hfa, hrec] at h
    cases j with
    | zero => simp [← h, hfa]
    | succ j =>
      simp only [← h, List.getD_cons_succ]
      exact ih hrec j (by simpa using hj)

lemma mapOpt_isSome (f : α → Option β) :
    ∀ {xs : List α}, (∀ a ∈ xs, (f a).isSome) →
      ∃ ys, mapOpt f xs = some ys := by
  intro xs
  induction xs with
  | nil => exact fun _ => ⟨[], rfl⟩
  | cons a as ih =>
    intro h
    obtain ⟨b, hb⟩ := Option.isSome_iff_exists.1 (h a (List.mem_cons_self a as))
    obtain ⟨ys, hys⟩ := ih fun x hx => h x (List.mem_cons_of_mem a hx)
    exact ⟨b :: ys, by simp [mapOpt, hb, hys]⟩

lemma findStart_append (header : List String) (sent : String) (rest : List String)
    (hh : ∀ l ∈ header, pyStrip l ≠ "#START") (hs : pyStrip sent = "#START") :
    findStart (header ++ sent :: rest) = some rest := by
  induction header with
  | nil => simp [findStart, hs]
  | cons a hd ih =>
    have ha : pyStrip a ≠ "#START" := hh a (List.mem_cons_self a hd)
    simp only [List.cons_append, findStart, ha, if_false]
    exact ih fun l hl => hh l (List.mem_cons_of_mem a hl)

lemma findStart_some :
    ∀ {lines rest : List String}, findStart lines = some rest →
      ∃ pre s0, lines = pre ++ s0 :: rest ∧ pyStrip s0 = "#START" ∧
        ∀ l ∈ pre, pyStrip l ≠ "#START" := by
  intro lines
  induction lines with
  | nil => intro rest h; simp [findStart] at h
  | cons a as ih =>
    intro rest h
    by_cases ha : pyStrip a = "#START"
    · refine ⟨[], a, ?_, ha, by simp⟩
      simp only [findStart, ha, if_true, Option.some.injEq] at h
      simp [h]
    · simp only [findStart, ha, if_false] at h
      obtain ⟨pre, s0, hl, hs, hp⟩ := ih h
      refine ⟨a :: pre, s0, by simp [hl], hs, ?_⟩
      intro l hl2
      rcases List.mem_cons.1 hl2 with h1 | h2
      · simpa [h1] using ha
      · exact hp l h2

lemma findStart_none :
    ∀ {lines : List String}, (∀ l ∈ lines, pyStrip l ≠ "#START") →
      findStart lines = none := by
  intro lines
  induction lines with
  | nil => intro _; rfl
  | cons a as ih =>
    intro h
    have ha : pyStrip a ≠ "#START" := h a (List.mem_cons_self a as)
    simp only [findStart, ha, if_false]
    exact ih fun l hl => h l (List.mem_cons_of_mem a hl)

/-- Invariant of the header-scan loop: the current line does not strip to
the sentinel, and neither does any remaining line. -/
def scanOk (st : String × List String) : Prop :=
  pyStrip st.1 ≠ "#START" ∧ ∀ l ∈ st.2, pyStrip l ≠ "#START"

lemma scanOk_readline (lines : List String)
    (h : ∀ l ∈ lines, pyStrip l ≠ "#START") : scanOk (readline lines) := by
  cases lines with
  | nil => exact ⟨by decide, fun l hl => absurd hl (List.not_mem_nil l)⟩
  | cons a as =>
    exact ⟨h a (List.mem_cons_self a as), fun l hl => h l (List.mem_cons_of_mem a hl)⟩

lemma scanOk_step (st : String × List String) (h : scanOk st) : scanOk (scanStep st) := by
  obtain ⟨cur, rem⟩ := st
  obtain ⟨_, h2⟩ := h
  cases rem with
  | nil =>
    refine ⟨?_, fun l hl => absurd hl (List.not_mem_nil l)⟩
    show pyStrip ("") ≠ "#START"
    decide
  | cons a as =>
    exact ⟨h2 a (List.mem_cons_self a as), fun l hl => h2 l (List.mem_cons_of_mem a hl)⟩

lemma scanOk_iterate (lines : List String)
    (h : ∀ l ∈ lines, pyStrip l ≠ "#START") :
    ∀ n, scanOk (scanStep^[n] (readline lines)) := by
  intro n
  induction n with
  | zero => simpa using scanOk_readline lines h
  | succ n ih =>
    rw [Function.iterate_succ_apply']
    exact scanOk_step _ ih

lemma zipWith3_getD (f : α → β → γ → δ) (da : α) (db : β) (dc : γ) (dd : δ) :
    ∀ (as : List α) (bs : List β) (cs : List γ) (i : Nat),
      i < as.length → i < bs.length → i < cs.length →
      (zipWith3 f as bs cs).getD i dd = f (as.getD i da) (bs.getD i db) (cs.getD i dc) := by
  intro as
  induction as with
  | nil => intro bs cs i ha; simp at ha
  | cons a as ih =>
    intro bs cs i ha hb hc
    cases bs with
    | nil => simp at hb
    | cons b bs =>
      cases cs with
      | nil => simp at hc
      | cons c cs =>
        cases i with
        | zero => simp [zipWith3]
        | succ i =>
          simp only [zipWith3, List.getD_cons_succ]
          exact ih bs cs i (by simpa using ha) (by simpa using hb) (by simpa using hc)

/-- The base (loader-written) entries and the stored file name of `e`
agree with those of `d`. -/
def sameBase {α : Type} (d e : ImfData α) : Prop :=
  e.file = d.file ∧ e.time = d.time ∧ e.bx = d.bx ∧ e.«by» = d.«by» ∧ e.bz = d.bz ∧
  e.vx = d.vx ∧ e.vy = d.vy ∧ e.vz = d.vz ∧ e.rho = d.rho ∧ e.temp = d.temp

lemma sameBase_calc_b (d : ImfData ℝ) : sameBase d (calc_b d) := by
  simp [sameBase, calc_b]

lemma sameBase_calc_v (d : ImfData ℝ) : sameBase d (calc_v d) := by
  simp [sameBase, calc_v]

lemma sameBase_calc_clock (d : ImfData ℝ) : sameBase d (calc_clock d) := by
  simp [sameBase, calc_clock]

/-- Closed form of the prerequisite resolution: each derived key ends up
present; a key that was already present keeps its stored value, a missing
one receives the value its `calc` method computes from the (untouched)
base fields. -/
lemma ensurePrereqs_eq (d : ImfData ℝ) :
    ensurePrereqs d = { d with
      b := some (d.b.getD (zipWith3 (fun x y z => Real.sqrt (x ^ 2 + y ^ 2 + z ^ 2))
        d.bx d.«by» d.bz)),
      v := some (d.v.getD (zipWith3 (fun x y z => Real.sqrt (x ^ 2 + y ^ 2 + z ^ 2))
        d.vx d.vy d.vz)),
      clock := some (d.clock.getD (List.zipWith atan2 d.«by» d.bz)) } := by
  obtain ⟨file, time, bx, byf, bz, vx, vy, vz, rho, temp, b, v, clock, eps⟩ := d
  unfold ensurePrereqs
  cases b <;> cases v <;> cases clock <;>
    simp [calc_b, calc_v, calc_clock]

lemma calc_epsilon_def (d : ImfData ℝ) :
    calc_epsilon d = { ensurePrereqs d with epsilon := some (zipWith3
      (fun v b c => 1000 * (1e-9 : ℝ) ^ 2 / (4 * Real.pi * 1e-7) * v * b ^ 2 *
        Real.sin (c / 2) ^ 4)
      ((ensurePrereqs d).v.getD []) ((ensurePrereqs d).b.getD [])
      ((ensurePrereqs d).clock.getD [])) } := rfl

lemma sameBase_calc_epsilon (d : ImfData ℝ) : sameBase d (calc_epsilon d) := by
  rw [calc_epsilon_def, ensurePrereqs_eq]
  simp [sameBase]

lemma calc_epsilon_b_of_some (d : ImfData ℝ) (lb : List ℝ) (hb : d.b = some lb) :
    (calc_epsilon d).b = some lb := by
  rw [calc_epsilon_def, ensurePrereqs_eq]
  simp [hb]

lemma calc_epsilon_v_of_some (d : ImfData ℝ) (lv : List ℝ) (hv : d.v = some lv) :
    (calc_epsilon d).v = some lv := by
  rw [calc_epsilon_def, ensurePrereqs_eq]
  simp [hv]

lemma calc_epsilon_clock_of_some (d : ImfData ℝ) (lc : List ℝ) (hc : d.clock = some lc) :
    (calc_epsilon d).clock = some lc := by
  rw [calc_epsilon_def, ensurePrereqs_eq]
  simp [hc]

lemma calc_epsilon_all_some (d : ImfData ℝ) (lb lv lc : List ℝ)
    (hb : d.b = some lb) (hv : d.v = some lv) (hc : d.clock = some lc) :
    (calc_epsilon d).epsilon = some (zipWith3
      (fun v b c => 1000 * (1e-9 : ℝ) ^ 2 / (4 * Real.pi * 1e-7) * v * b ^ 2 *
        Real.sin (c / 2) ^ 4) lv lb lc) := by
  rw [calc_epsilon_def, ensurePrereqs_eq]
  simp [hb, hv, hc]

/-! ### Concrete example data -/

/-- A dataset carrying a user-supplied override of the derived field `b`
(the stored value 999 differs from the field magnitude 5 computed from
`bx = 3`, `by = 4`, `bz = 0`). -/
noncomputable def dOverride : ImfData ℝ :=
  { file := "imf.dat", time := [], bx := [3], «by» := [4], bz := [0],
    vx := [], vy := [], vz := [], rho := [], temp := [], b := some [999] }

/-- A dataset with all three prerequisites of epsilon already present. -/
noncomputable def dPre : ImfData ℝ :=
  { file := "imf.dat", time := [], bx := [], «by» := [], bz := [],
    vx := [], vy := [], vz := [], rho := [], temp := [],
    b := some [1], v := some [2], clock := some [0] }

/-- A file system holding only header text (no sentinel) in every file. -/
def fsHdr : String → Option (List String) := fun _ => some ["Example IMF header"]

/-- A file system in which every open fails. -/
def fsNone : String → Option (List String) := fun _ => none

lemma sqrt_345 : Real.sqrt ((3 : ℝ) ^ 2 + 4 ^ 2 + 0 ^ 2) = 5 := by
  rw [show ((3 : ℝ) ^ 2 + 4 ^ 2 + 0 ^ 2) = 5 ^ 2 by norm_num]
  exact Real.sqrt_sq (by norm_num)

/-! ### Claims -/

/-- C1, counterexample: the claim that `calc_b` leaves an already-present
`'b'` entry unchanged is false — `calc_b` recomputes unconditionally, so a
user-supplied override (999, on a dataset with `bx=3, by=4, bz=0`) is
overwritten (with 5). -/
theorem c1_counterexample :
    dOverride.b = some [999] ∧ (calc_b dOverride).b ≠ dOverride.b := by
  refine ⟨rfl, ?_⟩
  simp only [calc_b, dOverride, zipWith3, sqrt_345]
  intro h
  have h3 := Option.some.inj h
  simp at h3

/-- C1 (amended): the guard against recomputing a present field lives in
`calc_epsilon` only — a prerequisite key (`'b'`, `'v'`, `'clock'`) already
present, e.g. a user-supplied override, is left unchanged by
`calc_epsilon`; `calc_b`, `calc_v` and `calc_clock` themselves always
recompute and overwrite, but the recomputation is idempotent in value: a
second call stores the same entry, since the base fields are untouched. -/
theorem c1_guard (d : ImfData ℝ) (lb lv lc : List ℝ) :
    (d.b = some lb → (calc_epsilon d).b = some lb)
    ∧ (d.v = some lv → (calc_epsilon d).v = some lv)
    ∧ (d.clock = some lc → (calc_epsilon d).clock = some lc)
    ∧ (calc_b (calc_b d)).b = (calc_b d).b
    ∧ (calc_v (calc_v d)).v = (calc_v d).v
    ∧ (calc_clock (calc_clock d)).clock = (calc_clock d).clock :=
  ⟨calc_epsilon_b_of_some d lb, calc_epsilon_v_of_some d lv,
   calc_epsilon_clock_of_some d lc, rfl, rfl, rfl⟩

/-- Witness for C1 (amended) at a dataset with `b`, `v`, `clock` stored as
`[1]`, `[2]`, `[0]`. -/
theorem c1_guard_witness :
    dPre.b = some [1] ∧ (calc_epsilon dPre).b = some [1]
    ∧ dPre.v = some [2] ∧ (calc_epsilon dPre).v = some [2]
    ∧ dPre.clock = some [0] ∧ (calc_epsilon dPre).clock = some [0] :=
  ⟨rfl, (c1_guard dPre [1] [2] [0]).1 rfl, rfl, (c1_guard dPre [1] [2] [0]).2.1 rfl,
   rfl, (c1_guard dPre [1] [2] [0]).2.2.1 rfl⟩

/-- C2 (code bug): for a file none of whose lines strips to `#START`, the
loader reaches the `diverges` outcome — the header-scan loop never exits,
because at end of file `readline()` keeps returning `''`, which does not
strip to `#START`; no malformed-file error is raised. -/
theorem c2_no_sentinel_loops {α : Type} [Zero α] (toFloat : String → Option α)
    (s : String) (fs : String → Option (List String)) (lines : List String)
    (hfs : fs s = some lines) (h : ∀ l ∈ lines, pyStrip l ≠ "#START") :
    readData toFloat (PyVal.str s) fs = Outcome.diverges
    ∧ ∀ n : Nat, pyStrip ((scanStep^[n] (readline lines)).1) ≠ "#START" := by
  constructor
  · simp [readData, hfs, findStart_none h]
  · intro n
    exact (scanOk_iterate lines h n).1

/-- Witness for C2 at a one-line header-only file: the loader diverges,
and after five loop iterations the exit condition still fails. -/
theorem c2_no_sentinel_loops_witness :
    readData pyFloat (PyVal.str ("imf.dat")) fsHdr = Outcome.diverges
    ∧ pyStrip ((scanStep^[5] (readline ["Example IMF header"])).1) ≠ "#START" :=
  ⟨(c2_no_sentinel_loops pyFloat ("imf.dat") fsHdr ["Example IMF header"] rfl
      (by decide)).1,
   (c2_no_sentinel_loops pyFloat ("imf.dat") fsHdr ["Example IMF header"] rfl
      (by decide)).2 5⟩

/-- C3: the string type check precedes all I/O — a non-string file name
yields `TypeError` for every file system (so no file is opened and no
dataset is produced), while a string file name never yields `TypeError`,
and the open is attempted (an unopenable file yields the I/O error). -/
theorem c3_type_check {α : Type} [Zero α] (toFloat : String → Option α) :
    (∀ (v : PyVal) (fs : String → Option (List String)),
      v.isStr = false → readData toFloat v fs = Outcome.typeError)
    ∧ ∀ (s : String) (fs : String → Option (List String)),
      readData toFloat (PyVal.str s) fs ≠ Outcome.typeError
      ∧ (fs s = none → readData toFloat (PyVal.str s) fs = Outcome.ioError) := by
  constructor
  · intro v fs hv
    cases v with
    | str s => simp [PyVal.isStr] at hv
    | int n => rfl
    | noneV => rfl
  · intro s fs
    constructor
    · cases hfs : fs s with
      | none => simp [readData, hfs]
      | some lines =>
        cases hstart : findStart lines with
        | none => simp [readData, hfs, hstart]
        | some dataLines =>
          cases hrows : mapOpt (parseRow toFloat) dataLines with
          | none => simp [readData, hfs, hstart, hrows]
          | some rows => simp [readData, hfs, hstart, hrows]
    · intro hfs
      simp [readData, hfs]

/-- Witness for C3: an integer file name fails the type check on a file
system where every open fails, and a string file name reaches the open
(failing with the I/O error instead). -/
theorem c3_type_check_witness :
    readData pyFloat (PyVal.int 0) fsNone = Outcome.typeError
    ∧ readData pyFloat (PyVal.str ("imf.dat")) fsNone ≠ Outcome.typeError
    ∧ readData pyFloat (PyVal.str ("imf.dat")) fsNone = Outcome.ioError :=
  ⟨(c3_type_check pyFloat).1 (PyVal.int 0) fsNone rfl,
   ((c3_type_check pyFloat).2 ("imf.dat") fsNone).1,
   ((c3_type_check pyFloat).2 ("imf.dat") fsNone).2 rfl⟩

lemma getD_drop (l : List α) : ∀ (n j : Nat) (d : α),
    (l.drop n).getD j d = l.getD (n + j) d := by
  induction l with
  | nil => intro n j d; simp
  | cons a as ih =>
    intro n j d
    cases n with
    | zero => simp
    | succ n =>
      simp only [List.drop_succ_cons]
      rw [ih n j d]
      have hn : n + 1 + j = (n + j) + 1 := by omega
      rw [hn, List.getD_cons_succ]

lemma getD_take (l : List α) : ∀ (m j : Nat) (d : α), j < m →
    (l.take m).getD j d = l.getD j d := by
  induction l with
  | nil => intro m j d _; simp
  | cons a as ih =>
    intro m j d hj
    cases m with
    | zero => omega
    | succ m =>
      simp only [List.take_succ_cons]
      cases j with
      | zero => simp
      | succ j =>
        simp only [List.getD_cons_succ]
        exact ih m j d (by omega)

/-- Property `P` holds of the dataset a successful load produced (and the load did
succeed). -/
def okWith {α : Type} (o : Outcome α) (P : ImfData α → Prop) : Prop :=
  match o with
  | .ok d => P d
  | _ => False

/-- All nine loader-written sequences of the dataset have length `n`. -/
def allLengths {α : Type} (d : ImfData α) (n : Nat) : Prop :=
  d.time.length = n ∧ d.bx.length = n ∧ d.«by».length = n ∧ d.bz.length = n ∧
  d.vx.length = n ∧ d.vy.length = n ∧ d.vz.length = n ∧ d.rho.length = n ∧
  d.temp.length = n

/-- C4: loading a well-formed file of `H` header lines, one sentinel line
and `N` parseable data lines succeeds, and every base field of the loaded
dataset (`time`, `bx`, `by`, `bz`, `vx`, `vy`, `vz`, `rho`, `temp`) has
exactly `N` entries. -/
theorem c4_parse_count {α : Type} [Zero α] (toFloat : String → Option α)
    (s : String) (fs : String → Option (List String))
    (header : List String) (sent : String) (data : List String)
    (hfs : fs s = some (header ++ sent :: data))
    (hh : ∀ l ∈ header, pyStrip l ≠ "#START")
    (hs : pyStrip sent = "#START")
    (hd : ∀ l ∈ data, (parseRow toFloat l).isSome) :
    okWith (readData toFloat (PyVal.str s) fs)
      (fun d => allLengths d data.length) := by
  obtain ⟨rows, hrows⟩ := mapOpt_isSome (parseRow toFloat) hd
  have hlen : rows.length = data.length := mapOpt_length _ hrows
  simp [readData, hfs, findStart_append header sent data hh hs, hrows,
    okWith, allLengths, hlen]

/-- Witness for C4: a file with two header lines, the sentinel and one
data line loads into a dataset whose nine base fields all have one
entry. -/
theorem c4_parse_count_witness :
    okWith (readData pyFloat (PyVal.str ("imf.dat"))
        (fun _ => some ["Example IMF file", "more header", "#START",
          "2000 01 02 03 04 05 0.0 1.5 -2.0 3 4 5 6 7 8"]))
      (fun d => allLengths d 1) :=
  c4_parse_count pyFloat ("imf.dat") _ ["Example IMF file", "more header"]
    "#START" ["2000 01 02 03 04 05 0.0 1.5 -2.0 3 4 5 6 7 8"]
    rfl (by decide) (by decide) (by decide)

/-- C5: the sentinel is recognised by trimmed equality — the scan stops at
the first line stripping to `#START` and hands every following line over
as data; conversely whenever the scan succeeds, the line it stopped at
strips to `#START` and no earlier line does. -/
theorem c5_sentinel_trimmed :
    (∀ (header : List String) (sent : String) (rest : List String),
      (∀ l ∈ header, pyStrip l ≠ "#START") → pyStrip sent = "#START" →
      findStart (header ++ sent :: rest) = some rest)
    ∧ ∀ (lines rest : List String), findStart lines = some rest →
      ∃ pre s0, lines = pre ++ s0 :: rest ∧ pyStrip s0 = "#START" ∧
        ∀ l ∈ pre, pyStrip l ≠ "#START" :=
  ⟨findStart_append, fun _ _ h => findStart_some h⟩

/-- Witness for C5 at the spec's example: a sentinel line with surrounding
whitespace, `"  #START  "`, is still recognised, and the line after it
becomes the data. -/
theorem c5_sentinel_trimmed_witness :
    findStart ["A header line", "  #START  ", "1998 01 01 00 00 00"] =
      some ["1998 01 01 00 00 00"] :=
  c5_sentinel_trimmed.1 ["A header line"] "  #START  "
    ["1998 01 01 00 00 00"] (by decide) (by decide)

/-- C6: on a successfully parsed data line, the stored row values pair the
tokens from index 7 onward with the eight fields in order (`rowField j`
comes from token `7 + j`), any field beyond the supplied tokens keeps the
zero default with no error, and the parse result is unchanged by altering
token 6 or tokens beyond index 14 (it depends only on tokens 0–5 and
7–14). -/
theorem c6_token_routing {α : Type} [Zero α] (toFloat : String → Option α)
    (l : String) (t : Timestamp) (vals : List α)
    (h : parseRow toFloat l = some (t, vals)) :
    vals.length = min 8 ((pySplit l).length - 7)
    ∧ (∀ j, j < vals.length →
        toFloat ((pySplit l).getD (7 + j) "") = some (rowField vals j))
    ∧ (∀ j, vals.length ≤ j → rowField vals j = 0)
    ∧ ∀ l2 : String, (pySplit l2).take 6 = (pySplit l).take 6 →
        ((pySplit l2).drop 7).take 8 = ((pySplit l).drop 7).take 8 →
        parseRow toFloat l2 = parseRow toFloat l := by
  simp only [parseRow] at h
  cases hts : parseTimestamp ((pySplit l).take 6) with
  | none => rw [hts] at h; simp at h
  | some t0 =>
    cases hm : mapOpt toFloat (((pySplit l).drop 7).take 8) with
    | none => rw [hts, hm] at h; simp at h
    | some vals0 =>
      rw [hts, hm] at h
      simp only [Option.some.injEq, Prod.mk.injEq] at h
      obtain ⟨ht0, hv0⟩ := h
      rw [hv0] at hm
      have hlen : vals.length = min 8 ((pySplit l).length - 7) := by
        rw [mapOpt_length _ hm, List.length_take, List.length_drop]
      refine ⟨hlen, ?_, ?_, ?_⟩
      · intro j hj
        have hx : j < (((pySplit l).drop 7).take 8).length := by
          rw [List.length_take, List.length_drop]
          rw [hlen] at hj
          exact hj
        have hj8 : j < 8 := by
          rw [hlen] at hj
          omega
        have hg := mapOpt_getD toFloat ("") (0 : α) hm j hx
        rw [getD_take _ 8 j ("") hj8, getD_drop] at hg
        exact hg
      · intro j hj
        exact List.getD_eq_default vals 0 hj
      · intro l2 h6 h78
        simp only [parseRow]
        rw [h6, h78, hts, hm]

/-- A simple token conversion usable for concrete kernel evaluation: an
unsigned digit token as an integer. -/
def intTok (s : String) : Option ℤ := (parseDigits 1 10 s).map Int.ofNat

/-- Witness for C6 at a nine-token line: token 7 (`"15"`) lands in the
first field, and fields past the two supplied value tokens stay zero. -/
theorem c6_token_routing_witness :
    intTok ((pySplit ("2000 01 02 03 04 05 XX 15 7")).getD 7 "") =
      some (rowField [(15 : ℤ), 7] 0)
    ∧ rowField [(15 : ℤ), 7] 2 = 0 :=
  ⟨(c6_token_routing intTok ("2000 01 02 03 04 05 XX 15 7")
      ⟨2000, 1, 2, 3, 4, 5⟩ [15, 7] (by decide)).2.1 0 (by decide),
   (c6_token_routing intTok ("2000 01 02 03 04 05 XX 15 7")
      ⟨2000, 1, 2, 3, 4, 5⟩ [15, 7] (by decide)).2.2.1 2 (by decide)⟩

/-- The spec's field-magnitude example dataset: `bx=3, by=4, bz=0`. -/
noncomputable def d340 : ImfData ℝ :=
  { file := "imf.dat", time := [], bx := [3], «by» := [4], bz := [0],
    vx := [], vy := [], vz := [], rho := [], temp := [] }

/-- A freshly loaded one-sample dataset: no derived key present. -/
noncomputable def dRaw : ImfData ℝ :=
  { file := "imf.dat", time := [], bx := [1], «by» := [2], bz := [2],
    vx := [3], vy := [4], vz := [12], rho := [5], temp := [300] }

/-- C7: `calc_clock` stores `atan2(by, bz)` elementwise as `clock`; the
angle always lies in `(-π, π]`; `by=0, bz=1` gives clock angle `0`
(northward) and `by=0, bz=-1` gives `π` (southward). -/
theorem c7_clock_angle (d : ImfData ℝ) :
    (calc_clock d).clock = some (List.zipWith atan2 d.«by» d.bz)
    ∧ (∀ y x : ℝ, atan2 y x ∈ Set.Ioc (-Real.pi) Real.pi)
    ∧ atan2 0 1 = 0 ∧ atan2 0 (-1) = Real.pi := by
  refine ⟨rfl, fun y x => Complex.arg_mem_Ioc ⟨x, y⟩, ?_, ?_⟩
  · show Complex.arg ⟨1, 0⟩ = 0
    have h1 : (⟨1, 0⟩ : ℂ) = 1 := by
      apply Complex.ext <;> simp
    rw [h1, Complex.arg_one]
  · show Complex.arg ⟨-1, 0⟩ = Real.pi
    have h1 : (⟨-1, 0⟩ : ℂ) = -1 := by
      apply Complex.ext <;> simp
    rw [h1, Complex.arg_neg_one]

/-- C8: with the prerequisites present, `calc_epsilon` stores, at every
index, `C * v * b² * sin(clock/2)⁴` with the fixed constant
`C = 1000 * (1e-9)² / (4π·1e-7)`; `calc_b` stores
`sqrt(bx² + by² + bz²)` (so `bx=3, by=4, bz=0` gives `b=5`) and `calc_v`
stores `sqrt(vx² + vy² + vz²)`. -/
theorem c8_epsilon_formula (d : ImfData ℝ) (lb lv lc : List ℝ) (i : Nat)
    (hb : d.b = some lb) (hv : d.v = some lv) (hc : d.clock = some lc)
    (hiv : i < lv.length) (hib : i < lb.length) (hic : i < lc.length) :
    ((calc_epsilon d).epsilon.getD []).getD i 0 =
      1000 * (1e-9 : ℝ) ^ 2 / (4 * Real.pi * 1e-7) * lv.getD i 0 *
        lb.getD i 0 ^ 2 * Real.sin (lc.getD i 0 / 2) ^ 4
    ∧ (calc_b d).b = some (zipWith3
        (fun x y z => Real.sqrt (x ^ 2 + y ^ 2 + z ^ 2)) d.bx d.«by» d.bz)
    ∧ (calc_v d).v = some (zipWith3
        (fun x y z => Real.sqrt (x ^ 2 + y ^ 2 + z ^ 2)) d.vx d.vy d.vz)
    ∧ (calc_b d340).b = some [5] := by
  refine ⟨?_, rfl, rfl, ?_⟩
  · rw [calc_epsilon_all_some d lb lv lc hb hv hc]
    simp only [Option.getD_some]
    exact zipWith3_getD _ 0 0 0 0 lv lb lc i hiv hib hic
  · show some (zipWith3 _ [3] [4] [0]) = some [5]
    simp only [zipWith3]
    rw [sqrt_345]

/-- Witness for C8 at `dPre` (`b=[1]`, `v=[2]`, `clock=[0]`), index 0. -/
theorem c8_epsilon_formula_witness :
    ((calc_epsilon dPre).epsilon.getD []).getD 0 0 =
      1000 * (1e-9 : ℝ) ^ 2 / (4 * Real.pi * 1e-7) * (2 : ℝ) * (1 : ℝ) ^ 2 *
        Real.sin ((0 : ℝ) / 2) ^ 4 :=
  (c8_epsilon_formula dPre [1] [2] [0] 0 rfl rfl rfl
    (by decide) (by decide) (by decide)).1

lemma ensurePrereqs_of_some (e : ImfData ℝ)
    (hb : e.b.isSome) (hv : e.v.isSome) (hc : e.clock.isSome) :
    ensurePrereqs e = e := by
  obtain ⟨lb, hlb⟩ := Option.isSome_iff_exists.1 hb
  obtain ⟨lv, hlv⟩ := Option.isSome_iff_exists.1 hv
  obtain ⟨lc, hlc⟩ := Option.isSome_iff_exists.1 hc
  rw [ensurePrereqs_eq, hlb, hlv, hlc]
  simp only [Option.getD_some]
  rw [← hlb, ← hlv, ← hlc]

lemma ensurePrereqs_some (d : ImfData ℝ) :
    (ensurePrereqs d).b.isSome ∧ (ensurePrereqs d).v.isSome ∧
      (ensurePrereqs d).clock.isSome := by
  rw [ensurePrereqs_eq]
  simp

lemma calc_epsilon_ensure (d : ImfData ℝ) :
    calc_epsilon (ensurePrereqs d) = calc_epsilon d := by
  rw [calc_epsilon_def (ensurePrereqs d), calc_epsilon_def d,
    ensurePrereqs_of_some (ensurePrereqs d) (ensurePrereqs_some d).1
      (ensurePrereqs_some d).2.1 (ensurePrereqs_some d).2.2]

lemma orders_eq (d : ImfData ℝ)
    (hb : d.b = none) (hv : d.v = none) (hc : d.clock = none) :
    calc_clock (calc_v (calc_b d)) = ensurePrereqs d
    ∧ calc_clock (calc_b (calc_v d)) = ensurePrereqs d
    ∧ calc_v (calc_clock (calc_b d)) = ensurePrereqs d
    ∧ calc_v (calc_b (calc_clock d)) = ensurePrereqs d
    ∧ calc_b (calc_clock (calc_v d)) = ensurePrereqs d
    ∧ calc_b (calc_v (calc_clock d)) = ensurePrereqs d := by
  refine ⟨?_, ?_, ?_, ?_, ?_, ?_⟩ <;>
    (rw [ensurePrereqs_eq]; simp [calc_b, calc_v, calc_clock, hb, hv, hc])

/-- C9: on a dataset with none of `b`, `v`, `clock` present,
`calc_epsilon` resolves the missing prerequisites itself (no failure: an
`epsilon` entry is produced) and the result equals what manual
precomputation of `calc_b`, `calc_v`, `calc_clock` in any of the six
orders followed by `calc_epsilon` produces. -/
theorem c9_dependency_closure (d : ImfData ℝ)
    (hb : d.b = none) (hv : d.v = none) (hc : d.clock = none) :
    (calc_epsilon d).epsilon.isSome
    ∧ calc_epsilon d = calc_epsilon (calc_clock (calc_v (calc_b d)))
    ∧ calc_epsilon d = calc_epsilon (calc_clock (calc_b (calc_v d)))
    ∧ calc_epsilon d = calc_epsilon (calc_v (calc_clock (calc_b d)))
    ∧ calc_epsilon d = calc_epsilon (calc_v (calc_b (calc_clock d)))
    ∧ calc_epsilon d = calc_epsilon (calc_b (calc_clock (calc_v d)))
    ∧ calc_epsilon d = calc_epsilon (calc_b (calc_v (calc_clock d))) := by
  obtain ⟨h1, h2, h3, h4, h5, h6⟩ := orders_eq d hb hv hc
  refine ⟨rfl, ?_, ?_, ?_, ?_, ?_, ?_⟩ <;>
    simp only [h1, h2, h3, h4, h5, h6, calc_epsilon_ensure]

/-- Witness for C9 at a freshly loaded one-sample dataset. -/
theorem c9_dependency_closure_witness :
    (calc_epsilon dRaw).epsilon.isSome
    ∧ calc_epsilon dRaw = calc_epsilon (calc_clock (calc_v (calc_b dRaw))) :=
  ⟨(c9_dependency_closure dRaw rfl rfl rfl).1,
   (c9_dependency_closure dRaw rfl rfl rfl).2.1⟩

/-- C10 (frame): each derived-quantity operation writes only its own
key(s) — `calc_b` leaves everything but `b` unchanged, `calc_v`
everything but `v`, `calc_clock` everything but `clock`, and
`calc_epsilon` leaves all nine base fields and the stored file name
unchanged (it writes at most `b`, `v`, `clock`, `epsilon`). -/
theorem c10_frame (d : ImfData ℝ) :
    sameBase d (calc_b d) ∧ (calc_b d).v = d.v ∧ (calc_b d).clock = d.clock
      ∧ (calc_b d).epsilon = d.epsilon
    ∧ sameBase d (calc_v d) ∧ (calc_v d).b = d.b ∧ (calc_v d).clock = d.clock
      ∧ (calc_v d).epsilon = d.epsilon
    ∧ sameBase d (calc_clock d) ∧ (calc_clock d).b = d.b ∧ (calc_clock d).v = d.v
      ∧ (calc_clock d).epsilon = d.epsilon
    ∧ sameBase d (calc_epsilon d) :=
  ⟨sameBase_calc_b d, rfl, rfl, rfl,
   sameBase_calc_v d, rfl, rfl, rfl,
   sameBase_calc_clock d, rfl, rfl, rfl,
   sameBase_calc_epsilon d⟩

end ExampleImf
